import Mathlib

/-!
# concepts-lite-test: the `cpt` concept taxonomy and the three `advance` overloads

A shallow embedding of `src/main.cpp`.

* Part A embeds the run-time code: the three overloads of `advance`
  (`v1`, `v2`, `v3`), generic over the cursor type and its operations.
* Part B embeds the compile-time code: the concepts of namespace `cpt` as
  Boolean functions of the primitive facts about a type, and the selection of
  an `advance` overload by its constraint.
* The definitions of the concepts are also recorded as text (which concept
  names which, and on which line), and the loops of `advance` are also run
  with a counter of a fixed-width difference type.
-/

namespace ConceptsLite

/-! ## Part A: the run-time algorithm -/

/-- The operation of a cursor that `advance` v1 uses: `++i`. -/
structure InputOps (I : Type) where
  /-- Pre-increment `++i`: the cursor after the step. -/
  preinc : I → I

/-- The operations of a cursor that `advance` v2 uses: `++i` and `--i`. -/
structure BidirOps (I : Type) extends InputOps I where
  /-- Pre-decrement `--i`: the cursor after the step. -/
  predec : I → I

/-- The operations of a random-access cursor; `advance` v3 uses `i += n`. -/
structure RandomOps (I : Type) extends BidirOps I where
  /-- Compound addition `i += n`: the cursor after the call. -/
  addAssign : I → Int → I

/-- The values of a signed two's-complement difference type of `bits` bits. -/
def DiffRange (bits : Nat) (n : Int) : Prop :=
  -(2 : Int) ^ (bits - 1) ≤ n ∧ n < (2 : Int) ^ (bits - 1)

instance (bits : Nat) (n : Int) : Decidable (DiffRange bits n) := by
  unfold DiffRange; infer_instance

/-- The loop `for (; n > 0; --n) ++i;` of v1 and of the first branch of v2.
The counter `n` is the mathematical value of the `difference_type` variable:
`--n` is only executed when `n > 0`, so it never leaves the range of a signed
type. -/
def incLoop {I : Type} (preinc : I → I) (i : I) (n : Int) : I :=
  if 0 < n then incLoop preinc (preinc i) (n - 1) else i
termination_by n.toNat
decreasing_by omega

/-- The loop `for (; n < 0; ++n) --i;` of the second branch of v2. -/
def decLoop {I : Type} (predec : I → I) (i : I) (n : Int) : I :=
  if n < 0 then decLoop predec (predec i) (n + 1) else i
termination_by (-n).toNat
decreasing_by omega

/-- What ends a call other than a normal return. -/
inductive Failure where
  /-- The expression of an `assert` was false: diagnostic and `abort()`. -/
  | assertFailed
  deriving DecidableEq, Repr

/-- The overload v1, `template <cpt::InputIterator I> void advance(I& i, n)`:
`assert(n >= 0); for (; n > 0; --n) ++i;`.
`ndebug` tells whether the translation unit is compiled with `NDEBUG`, which
turns `assert` of `<cassert>` into a no-op; the source does not define it.
The result is the cursor left in `i`. -/
def advance_v1 {I : Type} (ndebug : Bool) (ops : InputOps I) (i : I) (n : Int) :
    Except Failure I :=
  if !ndebug && !(decide (n ≥ 0)) then Except.error Failure.assertFailed
  else Except.ok (incLoop ops.preinc i n)

/-- The overload v2, `template <cpt::BidirectionalIterator I> void advance(I& i, n)`:
`if (n >= 0) for (; n > 0; --n) ++i; else for (; n < 0; ++n) --i;`. -/
def advance_v2 {I : Type} (ops : BidirOps I) (i : I) (n : Int) : I :=
  if n ≥ 0 then incLoop ops.preinc i n else decLoop ops.predec i n

/-- The overload v3, `template <cpt::RandomAccessIterator I> void advance(I& i, n)`:
`i += n;`. -/
def advance_v3 {I : Type} (ops : RandomOps I) (i : I) (n : Int) : I :=
  ops.addAssign i n

/-- A cursor instrumented with counters of the calls made on it. -/
structure Counted (I : Type) where
  /-- The underlying cursor. -/
  cur : I
  /-- Number of calls of `++`. -/
  incs : Nat
  /-- Number of calls of `--`. -/
  decs : Nat
  /-- Number of calls of `+=`. -/
  adds : Nat
  deriving DecidableEq, Repr

/-- A cursor with all counters at zero. -/
def Counted.start {I : Type} (c : I) : Counted I := ⟨c, 0, 0, 0⟩

/-- Instrumented `++`. -/
def Counted.preinc {I : Type} (f : I → I) (s : Counted I) : Counted I :=
  { s with cur := f s.cur, incs := s.incs + 1 }

/-- Instrumented `--`. -/
def Counted.predec {I : Type} (f : I → I) (s : Counted I) : Counted I :=
  { s with cur := f s.cur, decs := s.decs + 1 }

/-- Instrumented `+=`. -/
def Counted.addAssign {I : Type} (f : I → Int → I) (s : Counted I) (n : Int) : Counted I :=
  { s with cur := f s.cur n, adds := s.adds + 1 }

/-- The instrumented forward-only cursor. -/
def countedInput {I : Type} (ops : InputOps I) : InputOps (Counted I) :=
  { preinc := Counted.preinc ops.preinc }

/-- The instrumented bidirectional cursor. -/
def countedBidir {I : Type} (ops : BidirOps I) : BidirOps (Counted I) :=
  { preinc := Counted.preinc ops.preinc, predec := Counted.predec ops.predec }

/-- The instrumented random-access cursor. -/
def countedRandom {I : Type} (ops : RandomOps I) : RandomOps (Counted I) :=
  { preinc := Counted.preinc ops.preinc, predec := Counted.predec ops.predec,
    addAssign := Counted.addAssign ops.addAssign }

/-- A cursor that is a position on the integer line: `++` moves one to the
right, `--` one to the left, `+= n` moves by `n`. -/
def positionOps : RandomOps Int :=
  { preinc := fun p => p + 1, predec := fun p => p - 1, addAssign := fun p n => p + n }

/-! ## Part B: the compile-time concepts of namespace `cpt` -/

namespace cpt

/-- The primitive requirements on a type `X` (with `X x`) out of which the
concepts of namespace `cpt` are built: the `std` type traits and the
requirements of the `requires` expressions. -/
inductive Atom where
  /-- The trait `std::is_copy_constructible<X>::value`. -/
  | is_copy_constructible
  /-- The trait `std::is_copy_assignable<X>::value`. -/
  | is_copy_assignable
  /-- The trait `std::is_default_constructible<X>::value`. -/
  | is_default_constructible
  /-- The trait `std::is_nothrow_destructible<X>::value`. -/
  | is_nothrow_destructible
  /-- The trait `std::is_destructible<X>::value`. -/
  | is_destructible
  /-- The requirement `{x == x} -> bool`. -/
  | eq_bool
  /-- The requirement `{x != x} -> bool`. -/
  | ne_bool
  /-- The requirement `{x < x} -> bool`. -/
  | lt_bool
  /-- The requirement `{x > x} -> bool`. -/
  | gt_bool
  /-- The requirement `{x <= x} -> bool`. -/
  | le_bool
  /-- The requirement `{x >= x} -> bool`. -/
  | ge_bool
  /-- The requirement `{new X} -> X*`. -/
  | new_pointer
  /-- The requirement `{delete new X}`. -/
  | delete_new
  /-- The requirement `{new X[1]} -> X*`. -/
  | new_array_pointer
  /-- The requirement `{delete[] new X[1]}`. -/
  | delete_array_new
  /-- The trait `std::is_integral<X>::value`. -/
  | is_integral
  /-- The trait `std::is_signed<X>::value`. -/
  | is_signed
  /-- The requirement `{*x} -> typename std::iterator_traits<X>::reference`. -/
  | deref_reference
  /-- The requirement `{*x = std::declval<typename std::iterator_traits<X>::value_type>()}`. -/
  | deref_assign_value
  /-- The requirement `typename std::iterator_traits<X>::difference_type`. -/
  | difference_type
  /-- The requirement `{++x} -> X&`. -/
  | preinc_ref
  /-- The requirement `{x++} -> const X&`. -/
  | postinc_const_ref
  /-- The requirement `{x++} -> X`. -/
  | postinc_value
  /-- The requirement `{*x}`. -/
  | deref
  /-- The requirement `{iterator_category()} -> std::input_iterator_tag`. -/
  | category_input
  /-- The requirement `{iterator_category()} -> std::forward_iterator_tag`. -/
  | category_forward
  /-- The requirement `{iterator_category()} -> std::bidirectional_iterator_tag`. -/
  | category_bidirectional
  /-- The requirement `{iterator_category()} -> std::random_access_iterator_tag`. -/
  | category_random_access
  /-- The requirement `{--x} -> X&`. -/
  | predec_ref
  /-- The requirement `{x--} -> X`. -/
  | postdec_value
  /-- The requirement `requires Same<decltype(*x), decltype(*x--)>`. -/
  | same_deref_postdec
  /-- The requirement `{x - x} -> typename std::iterator_traits<X>::difference_type`. -/
  | minus_difference_type
  /-- The requirement `requires Same<decltype(x + (x - x)), decltype((x - x) + x)>`. -/
  | same_plus_commuted
  /-- The requirement `{x - (x - x)} -> X`. -/
  | minus_offset_value
  /-- The requirement `{x += x - x} -> X&`. -/
  | plus_assign_ref
  /-- The requirement `{x -= x - x} -> X&`. -/
  | minus_assign_ref
  /-- The requirement `{x[x-x]} -> typename std::iterator_traits<X>::reference`. -/
  | subscript_reference
  deriving DecidableEq, Repr

/-- The types a concept's requirements speak about, relative to its argument `X`. -/
inductive TyExpr where
  /-- The argument `X` itself. -/
  | self
  /-- The type `std::decay_t<decltype(x++)>`. -/
  | postincDecay
  /-- The type deduced for `x - x` in `{x - x} -> SignedIntegral`. -/
  | minusDeduced
  deriving DecidableEq, Repr

/-- The facts about the types of a program that the concepts query. `Ty` is
the set of types; nothing relates the facts of one type to another's, so a
statement proved for every `Facts` holds for every C++ type. -/
structure Facts (Ty : Type) where
  /-- Whether a primitive requirement is satisfied by a type. -/
  holds : Atom → Ty → Bool
  /-- The type `std::decay_t<decltype(x++)>`; `none` when `x++` is ill-formed. -/
  postincDecay : Ty → Option Ty
  /-- The type deduced for `x - x`; `none` when `x - x` is ill-formed. -/
  minusDeduced : Ty → Option Ty

variable {Ty : Type}

/-- The concept `Same<X, Y>`: `std::is_same<X, Y>::value`. -/
def Same [DecidableEq Ty] (X Y : Ty) : Bool := decide (X = Y)

/-- The concept `Copyable<X>`. -/
def Copyable (F : Facts Ty) (X : Ty) : Bool :=
  F.holds .is_copy_constructible X && F.holds .is_copy_assignable X

/-- The concept `DefaultConstructible<X>`. -/
def DefaultConstructible (F : Facts Ty) (X : Ty) : Bool :=
  F.holds .is_default_constructible X

/-- The concept `NothrowDestructible<X>`. -/
def NothrowDestructible (F : Facts Ty) (X : Ty) : Bool :=
  F.holds .is_nothrow_destructible X

/-- The concept `Destructible<X>`. -/
def Destructible (F : Facts Ty) (X : Ty) : Bool :=
  F.holds .is_destructible X

/-- The concept `EqualityComparable<X>`. -/
def EqualityComparable (F : Facts Ty) (X : Ty) : Bool :=
  F.holds .eq_bool X && F.holds .ne_bool X

/-- The concept `WeaklyOrdered<X>`. -/
def WeaklyOrdered (F : Facts Ty) (X : Ty) : Bool :=
  F.holds .lt_bool X && F.holds .gt_bool X && F.holds .le_bool X && F.holds .ge_bool X

/-- The concept `TotallyOrdered<X>`. -/
def TotallyOrdered (F : Facts Ty) (X : Ty) : Bool :=
  WeaklyOrdered F X && EqualityComparable F X

/-- The concept `Allocatable<X>`. -/
def Allocatable (F : Facts Ty) (X : Ty) : Bool :=
  F.holds .new_pointer X && F.holds .delete_new X && F.holds .new_array_pointer X
    && F.holds .delete_array_new X

/-- The concept `Semiregular<X>`. -/
def Semiregular (F : Facts Ty) (X : Ty) : Bool :=
  DefaultConstructible F X && Copyable F X && Destructible F X && Allocatable F X

/-- The concept `Regular<X>`. -/
def Regular (F : Facts Ty) (X : Ty) : Bool :=
  Semiregular F X && EqualityComparable F X

/-- The concept `Integral<X>`. -/
def Integral (F : Facts Ty) (X : Ty) : Bool :=
  F.holds .is_integral X

/-- The concept `SignedIntegral<X>`. -/
def SignedIntegral (F : Facts Ty) (X : Ty) : Bool :=
  Integral F X && F.holds .is_signed X

/-- The concept `Readable<X>`. -/
def Readable (F : Facts Ty) (X : Ty) : Bool :=
  Semiregular F X && F.holds .deref_reference X

/-- The concept `Writable<X>`. -/
def Writable (F : Facts Ty) (X : Ty) : Bool :=
  Semiregular F X && F.holds .deref_assign_value X

/-- The concept `WeaklyIncrementable<X>`. -/
def WeaklyIncrementable (F : Facts Ty) (X : Ty) : Bool :=
  F.holds .difference_type X && F.holds .preinc_ref X && F.holds .postinc_const_ref X

/-- The concept `Incrementable<X>`. -/
def Incrementable (F : Facts Ty) (X : Ty) : Bool :=
  Regular F X && WeaklyIncrementable F X && F.holds .postinc_value X

/-- The concept `WeakIterator<X>`. -/
def WeakIterator (F : Facts Ty) (X : Ty) : Bool :=
  WeaklyIncrementable F X && Copyable F X && F.holds .deref X

/-- The concept `Iterator<X>`. -/
def Iterator (F : Facts Ty) (X : Ty) : Bool :=
  WeakIterator F X && EqualityComparable F X

/-- The concept `WeakOutputIterator<X>`. -/
def WeakOutputIterator (F : Facts Ty) (X : Ty) : Bool :=
  Writable F X && WeakIterator F X

/-- The concept `OutputIterator<X>`. -/
def OutputIterator (F : Facts Ty) (X : Ty) : Bool :=
  WeakOutputIterator F X && Iterator F X

/-- The concept `WeakInputIterator<X>`; its last requirement is
`requires Readable<std::decay_t<decltype(x++)>>`. -/
def WeakInputIterator (F : Facts Ty) (X : Ty) : Bool :=
  WeakIterator F X && Readable F X &&
    (match F.postincDecay X with
     | some P => Readable F P
     | none => false)

/-- The concept `InputIterator<X>`. -/
def InputIterator (F : Facts Ty) (X : Ty) : Bool :=
  WeakInputIterator F X && Iterator F X && F.holds .category_input X

/-- The concept `ForwardIterator<X>`. -/
def ForwardIterator (F : Facts Ty) (X : Ty) : Bool :=
  InputIterator F X && Incrementable F X && F.holds .category_forward X

/-- The concept `BidirectionalIterator<X>`. -/
def BidirectionalIterator (F : Facts Ty) (X : Ty) : Bool :=
  ForwardIterator F X && F.holds .predec_ref X && F.holds .postdec_value X
    && F.holds .same_deref_postdec X && F.holds .category_bidirectional X

/-- The concept `RandomAccessIterator<X>`; its third requirement is
`{x - x} -> SignedIntegral`. -/
def RandomAccessIterator (F : Facts Ty) (X : Ty) : Bool :=
  BidirectionalIterator F X && TotallyOrdered F X &&
    (match F.minusDeduced X with
     | some D => SignedIntegral F D
     | none => false)
    && F.holds .minus_difference_type X && F.holds .same_plus_commuted X
    && F.holds .minus_offset_value X && F.holds .plus_assign_ref X
    && F.holds .minus_assign_ref X && F.holds .subscript_reference X
    && F.holds .category_random_access X

end cpt

/-! ### Normal forms of the constraints and the choice of an overload

The three overloads of `advance` have the same signature and differ only in
the concept that constrains `I`. Among the overloads whose constraint is
satisfied the compiler takes the one that is more constrained than every
other; "more constrained" compares the normal forms of the constraints, the
lists of primitive requirements a concept unfolds to. -/

/-- An atomic constraint: a primitive requirement on a type expression. -/
abbrev Constraint := cpt.Atom × cpt.TyExpr

/-- The requirements `as` stated of the concept's own argument. -/
def onSelf (as : List cpt.Atom) : List Constraint :=
  as.map (fun a => (a, cpt.TyExpr.self))

/-- The constraints of a concept applied to the type expression `e` instead
of to `X` (used for concepts whose requirements all speak of their argument). -/
def retarget (e : cpt.TyExpr) (cs : List Constraint) : List Constraint :=
  cs.map (fun c => (c.1, e))

namespace normal

/-- Normal form of `Copyable<X>`. -/
def Copyable : List Constraint :=
  onSelf [.is_copy_constructible, .is_copy_assignable]

/-- Normal form of `DefaultConstructible<X>`. -/
def DefaultConstructible : List Constraint := onSelf [.is_default_constructible]

/-- Normal form of `Destructible<X>`. -/
def Destructible : List Constraint := onSelf [.is_destructible]

/-- Normal form of `EqualityComparable<X>`. -/
def EqualityComparable : List Constraint := onSelf [.eq_bool, .ne_bool]

/-- Normal form of `WeaklyOrdered<X>`. -/
def WeaklyOrdered : List Constraint := onSelf [.lt_bool, .gt_bool, .le_bool, .ge_bool]

/-- Normal form of `TotallyOrdered<X>`. -/
def TotallyOrdered : List Constraint := WeaklyOrdered ++ EqualityComparable

/-- Normal form of `Allocatable<X>`. -/
def Allocatable : List Constraint :=
  onSelf [.new_pointer, .delete_new, .new_array_pointer, .delete_array_new]

/-- Normal form of `Semiregular<X>`. -/
def Semiregular : List Constraint :=
  DefaultConstructible ++ Copyable ++ Destructible ++ Allocatable

/-- Normal form of `Regular<X>`. -/
def Regular : List Constraint := Semiregular ++ EqualityComparable

/-- Normal form of `Integral<X>`. -/
def Integral : List Constraint := onSelf [.is_integral]

/-- Normal form of `SignedIntegral<X>`. -/
def SignedIntegral : List Constraint := Integral ++ onSelf [.is_signed]

/-- Normal form of `Readable<X>`. -/
def Readable : List Constraint := Semiregular ++ onSelf [.deref_reference]

/-- Normal form of `WeaklyIncrementable<X>`. -/
def WeaklyIncrementable : List Constraint :=
  onSelf [.difference_type, .preinc_ref, .postinc_const_ref]

/-- Normal form of `Incrementable<X>`. -/
def Incrementable : List Constraint :=
  Regular ++ WeaklyIncrementable ++ onSelf [.postinc_value]

/-- Normal form of `WeakIterator<X>`. -/
def WeakIterator : List Constraint :=
  WeaklyIncrementable ++ Copyable ++ onSelf [.deref]

/-- Normal form of `Iterator<X>`. -/
def Iterator : List Constraint := WeakIterator ++ EqualityComparable

/-- Normal form of `WeakInputIterator<X>`. -/
def WeakInputIterator : List Constraint :=
  WeakIterator ++ Readable ++ retarget .postincDecay Readable

/-- Normal form of `InputIterator<X>`. -/
def InputIterator : List Constraint :=
  WeakInputIterator ++ Iterator ++ onSelf [.category_input]

/-- Normal form of `ForwardIterator<X>`. -/
def ForwardIterator : List Constraint :=
  InputIterator ++ Incrementable ++ onSelf [.category_forward]

/-- Normal form of `BidirectionalIterator<X>`. -/
def BidirectionalIterator : List Constraint :=
  ForwardIterator ++
    onSelf [.predec_ref, .postdec_value, .same_deref_postdec, .category_bidirectional]

/-- Normal form of `RandomAccessIterator<X>`. -/
def RandomAccessIterator : List Constraint :=
  BidirectionalIterator ++ TotallyOrdered ++ retarget .minusDeduced SignedIntegral ++
    onSelf [.minus_difference_type, .same_plus_commuted, .minus_offset_value,
      .plus_assign_ref, .minus_assign_ref, .subscript_reference, .category_random_access]

end normal

variable {Ty : Type}

/-- The type a type expression denotes for the argument `X`. -/
def typeOf (F : cpt.Facts Ty) (X : Ty) : cpt.TyExpr → Option Ty
  | .self => some X
  | .postincDecay => F.postincDecay X
  | .minusDeduced => F.minusDeduced X

/-- Whether an atomic constraint is satisfied for the argument `X`. -/
def satisfies (F : cpt.Facts Ty) (X : Ty) (c : Constraint) : Bool :=
  match typeOf F X c.2 with
  | some T => F.holds c.1 T
  | none => false

/-- Whether a normalized constraint (a conjunction) is satisfied for `X`. -/
def satisfied (F : cpt.Facts Ty) (X : Ty) (cs : List Constraint) : Bool :=
  cs.all (satisfies F X)

/-- The three overloads of `advance`, named as in the comments of the source. -/
inductive Overload where
  /-- The overload `template <cpt::InputIterator I> void advance`. -/
  | v1
  /-- The overload `template <cpt::BidirectionalIterator I> void advance`. -/
  | v2
  /-- The overload `template <cpt::RandomAccessIterator I> void advance`. -/
  | v3
  deriving DecidableEq, Repr

/-- The gating predicate of an overload: the concept of its template head. -/
def Overload.gate (o : Overload) (F : cpt.Facts Ty) (X : Ty) : Bool :=
  match o with
  | .v1 => cpt.InputIterator F X
  | .v2 => cpt.BidirectionalIterator F X
  | .v3 => cpt.RandomAccessIterator F X

/-- The normal form of the constraint of an overload. -/
def Overload.constraint : Overload → List Constraint
  | .v1 => normal.InputIterator
  | .v2 => normal.BidirectionalIterator
  | .v3 => normal.RandomAccessIterator

/-- Subsumption of conjunctions of atomic constraints: `p` subsumes `q` when
every atomic constraint of `q` is one of `p`. -/
def subsumes (p q : List Constraint) : Bool :=
  q.all (fun c => p.contains c)

/-- Overload `a` is more constrained than `b`: the constraint of `a` subsumes
that of `b` and not the other way round. -/
def moreConstrained (a b : Overload) : Bool :=
  subsumes a.constraint b.constraint && !(subsumes b.constraint a.constraint)

/-- The overloads whose constraint the type `X` satisfies. -/
def viable (F : cpt.Facts Ty) (X : Ty) : List Overload :=
  [Overload.v1, Overload.v2, Overload.v3].filter (fun o => o.gate F X)

/-- The overload a call `advance(i, n)` with `i` of type `X` resolves to: the
viable overload that is more constrained than every other viable one; `none`
when there is no viable overload or no such best one (the call is ill-formed). -/
def resolve (F : cpt.Facts Ty) (X : Ty) : Option Overload :=
  match (viable F X).filter
      (fun o => (viable F X).all (fun o' => o' == o || moreConstrained o o')) with
  | [o] => some o
  | _ => none

/-- The gating predicate of `a` implies that of `b`, for every type of every program. -/
def GateImplies (a b : Overload) : Prop :=
  ∀ (T : Type) (F : cpt.Facts T) (X : T), a.gate F X = true → b.gate F X = true

/-! ### The types `main` instantiates `advance` with

Their facts are those of the standard library, which is not part of the
repository; they serve as concrete inputs. -/

/-- The cursor types of `main`, with `int` and `std::ptrdiff_t`. -/
inductive StdTy where
  /-- The type `std::forward_list<int>::iterator`. -/
  | forward_list_iterator
  /-- The type `std::list<int>::iterator`. -/
  | list_iterator
  /-- The type `std::vector<int>::iterator`. -/
  | vector_iterator
  /-- The type `std::ptrdiff_t`. -/
  | ptrdiff
  /-- The type `int`. -/
  | int
  deriving DecidableEq, Repr

/-- Requirements every cursor type of `main` satisfies. -/
def forwardAtoms : List cpt.Atom :=
  [.is_copy_constructible, .is_copy_assignable, .is_default_constructible,
   .is_nothrow_destructible, .is_destructible, .eq_bool, .ne_bool,
   .new_pointer, .delete_new, .new_array_pointer, .delete_array_new,
   .deref_reference, .deref_assign_value, .difference_type,
   .preinc_ref, .postinc_const_ref, .postinc_value, .deref,
   .category_input, .category_forward]

/-- Requirements the bidirectional cursors add. -/
def bidirectionalAtoms : List cpt.Atom :=
  [.predec_ref, .postdec_value, .same_deref_postdec, .category_bidirectional]

/-- Requirements the random-access cursor adds. -/
def randomAccessAtoms : List cpt.Atom :=
  [.lt_bool, .gt_bool, .le_bool, .ge_bool, .minus_difference_type, .same_plus_commuted,
   .minus_offset_value, .plus_assign_ref, .minus_assign_ref, .subscript_reference,
   .category_random_access]

/-- Requirements the integer types satisfy. -/
def integerAtoms : List cpt.Atom :=
  [.is_copy_constructible, .is_copy_assignable, .is_default_constructible,
   .is_nothrow_destructible, .is_destructible, .eq_bool, .ne_bool,
   .lt_bool, .gt_bool, .le_bool, .ge_bool,
   .new_pointer, .delete_new, .new_array_pointer, .delete_array_new,
   .is_integral, .is_signed, .preinc_ref, .postinc_const_ref, .postinc_value]

/-- The primitive requirements a type of `StdTy` satisfies. -/
def StdTy.atoms : StdTy → List cpt.Atom
  | .forward_list_iterator => forwardAtoms
  | .list_iterator => forwardAtoms ++ bidirectionalAtoms
  | .vector_iterator => forwardAtoms ++ bidirectionalAtoms ++ randomAccessAtoms
  | .ptrdiff => integerAtoms
  | .int => integerAtoms

/-- The facts about the types of `StdTy`. -/
def stdFacts : cpt.Facts StdTy where
  holds a X := X.atoms.contains a
  postincDecay X := some X
  minusDeduced X :=
    match X with
    | .vector_iterator => some .ptrdiff
    | .ptrdiff => some .ptrdiff
    | .int => some .int
    | _ => none

/-! ### The two-type concept `EqualityComparable2` -/

namespace cpt

/-- The facts about pairs of types that `EqualityComparable2` queries: with
`a` of the first type and `b` of the second. -/
structure CrossFacts (Ty : Type) where
  /-- The requirement `{a == b} -> bool`. -/
  eq_bool : Ty → Ty → Bool
  /-- The requirement `{a != b} -> bool`. -/
  ne_bool : Ty → Ty → Bool

/-- The concept `EqualityComparable2<X, Y>` (with `X x, Y y`): `requires
EqualityComparable<X>; requires EqualityComparable<Y>; {x == y} -> bool;
{y == x} -> bool; {x != y} -> bool; {y != x} -> bool;`. -/
def EqualityComparable2 {Ty : Type} (F : Facts Ty) (G : CrossFacts Ty) (X Y : Ty) : Bool :=
  EqualityComparable F X && EqualityComparable F Y &&
    G.eq_bool X Y && G.eq_bool Y X && G.ne_bool X Y && G.ne_bool Y X

/-! ### The definitions of the concepts as text: what each one names -/

/-- The concepts that namespace `cpt` defines. -/
inductive Name where
  | Same | Copyable | DefaultConstructible | NothrowDestructible | Destructible
  | EqualityComparable | EqualityComparable2 | WeaklyOrdered | TotallyOrdered
  | Allocatable | Semiregular | Regular | Integral | SignedIntegral
  | Readable | Writable | WeaklyIncrementable | Incrementable
  | WeakIterator | Iterator | WeakOutputIterator | OutputIterator
  | WeakInputIterator | InputIterator | ForwardIterator | BidirectionalIterator
  | RandomAccessIterator
  deriving DecidableEq, Repr

/-- The line of `src/main.cpp` on which the definition `concept bool ... =` of
a concept starts. -/
def Name.line : Name → Nat
  | .Same => 14
  | .Copyable => 20
  | .DefaultConstructible => 27
  | .NothrowDestructible => 34
  | .Destructible => 41
  | .EqualityComparable => 48
  | .EqualityComparable2 => 58
  | .WeaklyOrdered => 72
  | .TotallyOrdered => 84
  | .Allocatable => 90
  | .Semiregular => 102
  | .Regular => 109
  | .Integral => 115
  | .SignedIntegral => 121
  | .Readable => 127
  | .Writable => 137
  | .WeaklyIncrementable => 147
  | .Incrementable => 158
  | .WeakIterator => 169
  | .Iterator => 180
  | .WeakOutputIterator => 186
  | .OutputIterator => 192
  | .WeakInputIterator => 198
  | .InputIterator => 209
  | .ForwardIterator => 221
  | .BidirectionalIterator => 233
  | .RandomAccessIterator => 247

/-- The concepts that the definition of a concept names (as a conjunct, in a
nested `requires`, or as the constraint of a result type), in the order in
which they occur in the definition. -/
def Name.uses : Name → List Name
  | .Same => []
  | .Copyable => []
  | .DefaultConstructible => []
  | .NothrowDestructible => []
  | .Destructible => []
  | .EqualityComparable => []
  | .EqualityComparable2 => [.EqualityComparable, .EqualityComparable]
  | .WeaklyOrdered => []
  | .TotallyOrdered => [.WeaklyOrdered, .EqualityComparable]
  | .Allocatable => []
  | .Semiregular => [.DefaultConstructible, .Copyable, .Destructible, .Allocatable]
  | .Regular => [.Semiregular, .EqualityComparable]
  | .Integral => []
  | .SignedIntegral => [.Integral]
  | .Readable => [.Semiregular]
  | .Writable => [.Semiregular]
  | .WeaklyIncrementable => []
  | .Incrementable => [.Regular, .WeaklyIncrementable]
  | .WeakIterator => [.WeaklyIncrementable, .Copyable]
  | .Iterator => [.WeakIterator, .EqualityComparable]
  | .WeakOutputIterator => [.Writable, .WeakIterator]
  | .OutputIterator => [.WeakOutputIterator, .Iterator]
  | .WeakInputIterator => [.WeakIterator, .Readable, .Readable]
  | .InputIterator => [.WeakInputIterator, .Iterator]
  | .ForwardIterator => [.InputIterator, .Incrementable]
  | .BidirectionalIterator => [.ForwardIterator, .Same]
  | .RandomAccessIterator => [.BidirectionalIterator, .TotallyOrdered, .SignedIntegral, .Same]

/-- Concept `a` names concept `b` in its definition. -/
def Name.Uses (a b : Name) : Prop := b ∈ a.uses

/-- Concept `a` has `b` as a direct or transitive conjunct: a chain of
definitions leads from `a` to `b`. -/
def Name.DependsOn (a b : Name) : Prop := Relation.TransGen Name.Uses a b

end cpt

/-- Whether a type of `StdTy` is one of the integer types. -/
def StdTy.isInteger : StdTy → Bool
  | .ptrdiff => true
  | .int => true
  | _ => false

/-- The cross-type comparisons of the types of `StdTy`: a type compares with
itself, and the integer types compare with each other. -/
def stdCross : cpt.CrossFacts StdTy where
  eq_bool X Y := decide (X = Y) || (X.isInteger && Y.isInteger)
  ne_bool X Y := decide (X = Y) || (X.isInteger && Y.isInteger)

/-- The facts of the types of `StdTy` with `==` and `!=` taken away from every type. -/
def vectorWithoutEquality : cpt.Facts StdTy :=
  { stdFacts with
    holds := fun a X =>
      if a = cpt.Atom.eq_bool ∨ a = cpt.Atom.ne_bool then false else stdFacts.holds a X }

/-! ### The loops with a counter of the fixed-width difference type -/

/-- How a run of `advance` ends other than by returning. -/
inductive RunError where
  /-- The expression of an `assert` was false. -/
  | assertFailed
  /-- A step of the counter left the range of the difference type. -/
  | overflow
  /-- The run did not finish within the given number of iterations. -/
  | outOfFuel
  deriving DecidableEq, Repr

/-- The step `--n` of a counter of a `bits`-bit difference type; `none` when
`n - 1` is not a value of the type. -/
def counterDec (bits : Nat) (n : Int) : Option Int :=
  if DiffRange bits (n - 1) then some (n - 1) else none

/-- The step `++n` of a counter of a `bits`-bit difference type; `none` when
`n + 1` is not a value of the type. -/
def counterInc (bits : Nat) (n : Int) : Option Int :=
  if DiffRange bits (n + 1) then some (n + 1) else none

/-- A run of `for (; n > 0; --n) ++i;` of at most `fuel` iterations: the cursor
at the end and the values the counter had at each test `n > 0`. -/
def incLoopRun {I : Type} (bits : Nat) (preinc : I → I) :
    Nat → I → Int → Except RunError (I × List Int)
  | 0, i, n => if 0 < n then Except.error RunError.outOfFuel else Except.ok (i, [n])
  | fuel + 1, i, n =>
    if 0 < n then
      match counterDec bits n with
      | none => Except.error RunError.overflow
      | some m =>
        match incLoopRun bits preinc fuel (preinc i) m with
        | Except.ok r => Except.ok (r.1, n :: r.2)
        | Except.error e => Except.error e
    else Except.ok (i, [n])

/-- A run of `for (; n < 0; ++n) --i;` of at most `fuel` iterations: the cursor
at the end and the values the counter had at each test `n < 0`. -/
def decLoopRun {I : Type} (bits : Nat) (predec : I → I) :
    Nat → I → Int → Except RunError (I × List Int)
  | 0, i, n => if n < 0 then Except.error RunError.outOfFuel else Except.ok (i, [n])
  | fuel + 1, i, n =>
    if n < 0 then
      match counterInc bits n with
      | none => Except.error RunError.overflow
      | some m =>
        match decLoopRun bits predec fuel (predec i) m with
        | Except.ok r => Except.ok (r.1, n :: r.2)
        | Except.error e => Except.error e
    else Except.ok (i, [n])

/-- A run of the overload v1 with a counter of `bits` bits. -/
def advance_v1_run {I : Type} (bits : Nat) (ndebug : Bool) (ops : InputOps I)
    (fuel : Nat) (i : I) (n : Int) : Except RunError (I × List Int) :=
  if !ndebug && !(decide (n ≥ 0)) then Except.error RunError.assertFailed
  else incLoopRun bits ops.preinc fuel i n

/-- A run of the overload v2 with a counter of `bits` bits. -/
def advance_v2_run {I : Type} (bits : Nat) (ops : BidirOps I)
    (fuel : Nat) (i : I) (n : Int) : Except RunError (I × List Int) :=
  if n ≥ 0 then incLoopRun bits ops.preinc fuel i n
  else decLoopRun bits ops.predec fuel i n

/-- The values `k, k - 1, ..., 0`. -/
def downFrom : Nat → List Int
  | 0 => [0]
  | k + 1 => ((k + 1 : Nat) : Int) :: downFrom k

/-- The values `-k, -k + 1, ..., 0`. -/
def upFrom : Nat → List Int
  | 0 => [0]
  | k + 1 => (-((k + 1 : Nat) : Int)) :: upFrom k

/-! ### The loops as iterated steps -/

theorem incLoop_pos {I : Type} (f : I → I) (i : I) (n : Int) (h : 0 < n) :
    incLoop f i n = incLoop f (f i) (n - 1) := by
  rw [incLoop, if_pos h]

theorem incLoop_nonpos {I : Type} (f : I → I) (i : I) (n : Int) (h : n ≤ 0) :
    incLoop f i n = i := by
  rw [incLoop, if_neg (by omega)]

theorem decLoop_neg {I : Type} (f : I → I) (i : I) (n : Int) (h : n < 0) :
    decLoop f i n = decLoop f (f i) (n + 1) := by
  rw [decLoop, if_pos h]

theorem decLoop_nonneg {I : Type} (f : I → I) (i : I) (n : Int) (h : 0 ≤ n) :
    decLoop f i n = i := by
  rw [decLoop, if_neg (by omega)]

theorem incLoop_natCast {I : Type} (f : I → I) (k : Nat) (i : I) :
    incLoop f i (k : Int) = f^[k] i := by
  induction k generalizing i with
  | zero => simpa using incLoop_nonpos f i 0 (le_refl 0)
  | succ k ih =>
    rw [incLoop_pos f i _ (by omega)]
    have : ((k + 1 : Nat) : Int) - 1 = (k : Int) := by omega
    rw [this, ih, Function.iterate_succ_apply]

theorem decLoop_neg_natCast {I : Type} (f : I → I) (k : Nat) (i : I) :
    decLoop f i (-(k : Int)) = f^[k] i := by
  induction k generalizing i with
  | zero => simpa using decLoop_nonneg f i 0 (le_refl 0)
  | succ k ih =>
    rw [decLoop_neg f i _ (by omega)]
    have : -((k + 1 : Nat) : Int) + 1 = -(k : Int) := by omega
    rw [this, ih, Function.iterate_succ_apply]

theorem incLoop_eq_iterate {I : Type} (f : I → I) (i : I) (n : Int) :
    incLoop f i n = f^[n.toNat] i := by
  rcases le_or_lt n 0 with h | h
  · rw [incLoop_nonpos f i n h, Int.toNat_of_nonpos h]; rfl
  · obtain ⟨k, rfl⟩ := Int.eq_ofNat_of_zero_le (le_of_lt h)
    simpa using incLoop_natCast f k i

theorem decLoop_eq_iterate {I : Type} (f : I → I) (i : I) (n : Int) :
    decLoop f i n = f^[(-n).toNat] i := by
  rcases le_or_lt 0 n with h | h
  · rw [decLoop_nonneg f i n h, Int.toNat_of_nonpos (by omega)]; rfl
  · obtain ⟨k, hk⟩ := Int.eq_ofNat_of_zero_le (show 0 ≤ -n by omega)
    have hn : n = -(k : Int) := by omega
    subst hn
    simpa using decLoop_neg_natCast f k i

/-! ### The instrumented cursor and the position cursor -/

theorem counted_preinc_iterate {I : Type} (f : I → I) (k : Nat) (s : Counted I) :
    (Counted.preinc f)^[k] s =
      { cur := f^[k] s.cur, incs := s.incs + k, decs := s.decs, adds := s.adds } := by
  induction k generalizing s with
  | zero => rfl
  | succ k ih =>
    rw [Function.iterate_succ_apply, ih, Function.iterate_succ_apply]
    simp [Counted.preinc, Nat.add_assoc, Nat.add_comm 1 k]

theorem counted_predec_iterate {I : Type} (f : I → I) (k : Nat) (s : Counted I) :
    (Counted.predec f)^[k] s =
      { cur := f^[k] s.cur, incs := s.incs, decs := s.decs + k, adds := s.adds } := by
  induction k generalizing s with
  | zero => rfl
  | succ k ih =>
    rw [Function.iterate_succ_apply, ih, Function.iterate_succ_apply]
    simp [Counted.predec, Nat.add_assoc, Nat.add_comm 1 k]

theorem position_preinc_iterate (k : Nat) (p : Int) :
    positionOps.preinc^[k] p = p + k := by
  induction k generalizing p with
  | zero => simp
  | succ k ih =>
    rw [Function.iterate_succ_apply, ih]
    simp only [positionOps]; push_cast; ring

theorem position_predec_iterate (k : Nat) (p : Int) :
    positionOps.predec^[k] p = p - k := by
  induction k generalizing p with
  | zero => simp
  | succ k ih =>
    rw [Function.iterate_succ_apply, ih]
    simp only [positionOps]; push_cast; ring

theorem advance_v2_iterate {I : Type} (ops : BidirOps I) (c : I) (n : Int) :
    advance_v2 ops c n =
      if 0 ≤ n then ops.preinc^[n.toNat] c else ops.predec^[(-n).toNat] c := by
  unfold advance_v2
  by_cases h : 0 ≤ n
  · rw [if_pos h, if_pos h, incLoop_eq_iterate]
  · rw [if_neg h, if_neg h, decLoop_eq_iterate]

theorem advance_v2_position (p n : Int) :
    advance_v2 positionOps.toBidirOps p n = p + n := by
  rw [advance_v2_iterate]
  by_cases h : 0 ≤ n
  · rw [if_pos h]
    have := position_preinc_iterate n.toNat p
    simp only [positionOps] at this ⊢
    rw [this, Int.toNat_of_nonneg h]
  · rw [if_neg h]
    have := position_predec_iterate (-n).toNat p
    simp only [positionOps] at this ⊢
    rw [this, Int.toNat_of_nonneg (by omega)]; ring

theorem position_addAssign_spec (c n : Int) :
    (0 ≤ n → positionOps.addAssign c n = positionOps.preinc^[n.toNat] c) ∧
    (n < 0 → positionOps.addAssign c n = positionOps.predec^[n.natAbs] c) := by
  constructor
  · intro h
    rw [position_preinc_iterate, Int.toNat_of_nonneg h]; rfl
  · intro h
    rw [position_predec_iterate]
    have : ((n.natAbs : Nat) : Int) = -n := by omega
    rw [this]; simp only [positionOps]; ring

theorem advance_v1_of_nonneg {I : Type} (ndebug : Bool) (ops : InputOps I) (c : I)
    (n : Int) (hn : 0 ≤ n) :
    advance_v1 ndebug ops c n = Except.ok (ops.preinc^[n.toNat] c) := by
  unfold advance_v1
  have hd : decide (n ≥ 0) = true := decide_eq_true hn
  rw [hd, incLoop_eq_iterate]
  cases ndebug <;> rfl

theorem advance_v2_of_nonneg {I : Type} (ops : BidirOps I) (c : I) (n : Int) (hn : 0 ≤ n) :
    advance_v2 ops c n = ops.preinc^[n.toNat] c := by
  rw [advance_v2_iterate, if_pos hn]

theorem advance_v2_of_neg {I : Type} (ops : BidirOps I) (c : I) (n : Int) (hn : n < 0) :
    advance_v2 ops c n = ops.predec^[n.natAbs] c := by
  rw [advance_v2_iterate, if_neg (by omega)]
  have hk : (-n).toNat = n.natAbs := by omega
  rw [hk]

/-! ## Theorems of Part A -/

/-- C1. Tier 1 (the InputIterator overload): for every cursor `c` and every
offset `n ≥ 0`, in either build mode, `advance(c, n)` returns and leaves the
cursor obtained by applying pre-increment to `c` exactly `n` times. -/
theorem advance_v1_eq_iterate {I : Type} (ndebug : Bool) (ops : InputOps I) (c : I)
    (n : Int) (hn : 0 ≤ n) :
    advance_v1 ndebug ops c n = Except.ok (ops.preinc^[n.toNat] c) ∧
      ((n.toNat : Nat) : Int) = n := by
  exact ⟨advance_v1_of_nonneg ndebug ops c n hn, Int.toNat_of_nonneg hn⟩

/-- Witness of C1: the position cursor at 0 advanced by 5. -/
theorem advance_v1_eq_iterate_witness :
    (0 : Int) ≤ 5 ∧
      (advance_v1 false positionOps.toInputOps 0 5
          = Except.ok (positionOps.preinc^[(5 : Int).toNat] 0) ∧
        (((5 : Int).toNat : Nat) : Int) = 5) :=
  ⟨by decide, advance_v1_eq_iterate false positionOps.toInputOps 0 5 (by decide)⟩

/-- C2. Tier 2 (the BidirectionalIterator overload): for every cursor `c` and
every signed offset `n`, if `n ≥ 0` the resulting cursor is pre-increment
applied `n` times to `c`, and if `n < 0` it is pre-decrement applied `|n|`
times to `c`. -/
theorem advance_v2_eq_iterate {I : Type} (ops : BidirOps I) (c : I) (n : Int) :
    (0 ≤ n → advance_v2 ops c n = ops.preinc^[n.toNat] c ∧ ((n.toNat : Nat) : Int) = n) ∧
    (n < 0 → advance_v2 ops c n = ops.predec^[n.natAbs] c ∧ ((n.natAbs : Nat) : Int) = |n|) := by
  constructor
  · intro h
    exact ⟨advance_v2_of_nonneg ops c n h, Int.toNat_of_nonneg h⟩
  · intro h
    exact ⟨advance_v2_of_neg ops c n h, by rw [Int.natCast_natAbs]⟩

/-- Witness of C2: the position cursor at 0 advanced by 3 and by -2. -/
theorem advance_v2_eq_iterate_witness :
    ((0 : Int) ≤ 3 ∧ advance_v2 positionOps.toBidirOps 0 3 = positionOps.preinc^[(3 : Int).toNat] 0) ∧
    ((-2 : Int) < 0 ∧ advance_v2 positionOps.toBidirOps 0 (-2)
        = positionOps.predec^[(-2 : Int).natAbs] 0) :=
  ⟨⟨by decide, ((advance_v2_eq_iterate positionOps.toBidirOps 0 3).1 (by decide)).1⟩,
   ⟨by decide, ((advance_v2_eq_iterate positionOps.toBidirOps 0 (-2)).2 (by decide)).1⟩⟩

/-- C3, as stated, fails at the minimum of the difference type: for the 64-bit
difference type the offset `-2^63` is a value of the type, its negation is not,
and from the position cursor left by `advance(c, -2^63)` no offset of the type
brings the cursor back to where it started. -/
theorem advance_v2_round_trip_min_counterexample :
    DiffRange 64 (-(2 : Int) ^ 63) ∧ ¬ DiffRange 64 (-(-(2 : Int) ^ 63)) ∧
      ∀ m : Int, DiffRange 64 m →
        advance_v2 positionOps.toBidirOps
          (advance_v2 positionOps.toBidirOps 0 (-(2 : Int) ^ 63)) m ≠ 0 := by
  refine ⟨by decide, by decide, ?_⟩
  intro m hm h
  rw [advance_v2_position, advance_v2_position] at h
  have h2 : m < (2 : Int) ^ 63 := hm.2
  norm_num at h h2
  omega

/-- C3 (amended). Round-trip law for Tier 2: for every bidirectional cursor
`c` whose pre-decrement and pre-increment are mutual inverses and every offset
`n` such that both `n` and `-n` are values of the difference type,
`advance(c, n)` followed by `advance(c, -n)` leaves the original cursor. -/
theorem advance_v2_round_trip {I : Type} (ops : BidirOps I)
    (hdi : ∀ x, ops.predec (ops.preinc x) = x) (hid : ∀ x, ops.preinc (ops.predec x) = x)
    (bits : Nat) (c : I) (n : Int) (_hn : DiffRange bits n) (_hneg : DiffRange bits (-n)) :
    advance_v2 ops (advance_v2 ops c n) (-n) = c := by
  have hL : Function.LeftInverse ops.predec ops.preinc := hdi
  have hR : Function.LeftInverse ops.preinc ops.predec := hid
  rcases lt_trichotomy n 0 with h | h | h
  · have h1 : advance_v2 ops c n = ops.predec^[(-n).toNat] c := by
      rw [advance_v2_iterate, if_neg (by omega)]
    have h2 : ∀ d, advance_v2 ops d (-n) = ops.preinc^[(-n).toNat] d := by
      intro d; rw [advance_v2_iterate, if_pos (by omega)]
    rw [h1, h2]
    exact (hR.iterate (-n).toNat) c
  · subst h
    simp [advance_v2_iterate]
  · have h1 : advance_v2 ops c n = ops.preinc^[n.toNat] c := by
      rw [advance_v2_iterate, if_pos (by omega)]
    have h2 : ∀ d, advance_v2 ops d (-n) = ops.predec^[n.toNat] d := by
      intro d; rw [advance_v2_iterate, if_neg (by omega)]
      have hk : (- -n).toNat = n.toNat := by omega
      rw [hk]
    rw [h1, h2]
    exact (hL.iterate n.toNat) c

/-- Witness of C3 (amended): the position cursor, 64-bit offsets, `n = -10`. -/
theorem advance_v2_round_trip_witness :
    DiffRange 64 (-10) ∧ DiffRange 64 (-(-10)) ∧
      advance_v2 positionOps.toBidirOps (advance_v2 positionOps.toBidirOps 7 (-10)) (-(-10)) = 7 :=
  ⟨by decide, by decide,
    advance_v2_round_trip positionOps.toBidirOps (fun x => by simp [positionOps])
      (fun x => by simp [positionOps]) 64 7 (-10) (by decide) (by decide)⟩

/-- C4. Cross-tier consistency: for every random-access cursor whose compound
addition `c += n` agrees with `n` pre-increments (`n ≥ 0`) or `|n|`
pre-decrements (`n < 0`), and every signed `n`, the Tier 3 overload and the
Tier 2 loop overload leave equal cursors from the same `c` and `n`. -/
theorem advance_v3_eq_advance_v2 {I : Type} (ops : RandomOps I)
    (hadd : ∀ (c : I) (n : Int),
      (0 ≤ n → ops.addAssign c n = ops.preinc^[n.toNat] c) ∧
      (n < 0 → ops.addAssign c n = ops.predec^[n.natAbs] c))
    (c : I) (n : Int) :
    advance_v3 ops c n = advance_v2 ops.toBidirOps c n := by
  unfold advance_v3
  rcases le_or_lt 0 n with h | h
  · rw [(hadd c n).1 h, advance_v2_of_nonneg ops.toBidirOps c n h]
  · rw [(hadd c n).2 h, advance_v2_of_neg ops.toBidirOps c n h]

/-- Witness of C4: the position cursor at 0 and the offset -10. -/
theorem advance_v3_eq_advance_v2_witness :
    advance_v3 positionOps 0 (-10) = advance_v2 positionOps.toBidirOps 0 (-10) :=
  advance_v3_eq_advance_v2 positionOps position_addAssign_spec 0 (-10)

/-- C6, as stated, fails on Tier 3: `advance(c, 0)` makes one call of `+=`
(on the instrumented position cursor the counter of `+=` calls ends at 1). -/
theorem advance_v3_zero_counterexample :
    (advance_v3 (countedRandom positionOps) (Counted.start 0) 0).adds = 1 := by
  decide

/-- C6 (amended). Offset 0: Tier 1 (in either build mode) and Tier 2 leave the
cursor unchanged and call none of `++`, `--`, `+=`; Tier 3 calls `+=` exactly
once, with offset 0, and calls neither `++` nor `--`, so it leaves the cursor
unchanged whenever `c += 0` does. -/
theorem advance_zero {I : Type} (ndebug : Bool) (ops1 : InputOps I) (ops2 : BidirOps I)
    (ops3 : RandomOps I) (s : Counted I) :
    advance_v1 ndebug (countedInput ops1) s 0 = Except.ok s ∧
    advance_v2 (countedBidir ops2) s 0 = s ∧
    advance_v3 (countedRandom ops3) s 0 =
      { cur := ops3.addAssign s.cur 0, incs := s.incs, decs := s.decs, adds := s.adds + 1 } ∧
    (ops3.addAssign s.cur 0 = s.cur →
      (advance_v3 (countedRandom ops3) s 0).cur = s.cur) := by
  refine ⟨?_, ?_, rfl, fun h => h⟩
  · have := advance_v1_of_nonneg ndebug (countedInput ops1) s 0 (le_refl 0)
    simpa using this
  · rw [advance_v2_iterate]; simp

/-- Witness of C6 (amended): the position cursor at 4 with clean counters. -/
theorem advance_zero_witness :
    positionOps.addAssign (4 : Int) 0 = 4 ∧
      (advance_v3 (countedRandom positionOps) (Counted.start (4 : Int)) 0).cur = 4 :=
  ⟨by decide,
    (advance_zero false positionOps.toInputOps positionOps.toBidirOps positionOps
      (Counted.start (4 : Int))).2.2.2 (by decide)⟩

/-- C8. Operation counts, on a cursor whose counters start at zero: Tier 1
with `n ≥ 0` makes exactly `n` increments and no decrement; Tier 2 with
`n ≥ 0` makes exactly `n` increments and no decrement, and with `n < 0`
exactly `|n|` decrements and no increment; Tier 3 makes exactly one offset
addition and no increment or decrement, for every `n`. -/
theorem advance_operation_counts {I : Type} (ndebug : Bool) (ops1 : InputOps I)
    (ops2 : BidirOps I) (ops3 : RandomOps I) (c : I) (n : Int) :
    (0 ≤ n →
      advance_v1 ndebug (countedInput ops1) (Counted.start c) n =
        Except.ok { cur := ops1.preinc^[n.toNat] c, incs := n.toNat, decs := 0, adds := 0 } ∧
      advance_v2 (countedBidir ops2) (Counted.start c) n =
        { cur := ops2.preinc^[n.toNat] c, incs := n.toNat, decs := 0, adds := 0 } ∧
      ((n.toNat : Nat) : Int) = n) ∧
    (n < 0 →
      advance_v2 (countedBidir ops2) (Counted.start c) n =
        { cur := ops2.predec^[n.natAbs] c, incs := 0, decs := n.natAbs, adds := 0 } ∧
      ((n.natAbs : Nat) : Int) = |n|) ∧
    advance_v3 (countedRandom ops3) (Counted.start c) n =
      { cur := ops3.addAssign c n, incs := 0, decs := 0, adds := 1 } := by
  refine ⟨fun h => ⟨?_, ?_, Int.toNat_of_nonneg h⟩, fun h => ⟨?_, by rw [Int.natCast_natAbs]⟩, rfl⟩
  · rw [advance_v1_of_nonneg ndebug (countedInput ops1) (Counted.start c) n h]
    simp [countedInput, counted_preinc_iterate, Counted.start]
  · rw [advance_v2_of_nonneg (countedBidir ops2) (Counted.start c) n h]
    simp [countedBidir, counted_preinc_iterate, Counted.start]
  · rw [advance_v2_of_neg (countedBidir ops2) (Counted.start c) n h]
    simp [countedBidir, counted_predec_iterate, Counted.start]

/-- Witness of C8: the position cursor at 0 advanced by 5 in Tiers 1 and 2
and by -2 in Tier 2. -/
theorem advance_operation_counts_witness :
    ((0 : Int) ≤ 5 ∧
      advance_v1 false (countedInput positionOps.toInputOps) (Counted.start (0 : Int)) 5 =
        Except.ok { cur := positionOps.preinc^[(5 : Int).toNat] 0,
                    incs := (5 : Int).toNat, decs := 0, adds := 0 }) ∧
    ((-2 : Int) < 0 ∧
      advance_v2 (countedBidir positionOps.toBidirOps) (Counted.start (0 : Int)) (-2) =
        { cur := positionOps.predec^[(-2 : Int).natAbs] 0,
          incs := 0, decs := (-2 : Int).natAbs, adds := 0 }) :=
  ⟨⟨by decide,
     ((advance_operation_counts false positionOps.toInputOps positionOps.toBidirOps
        positionOps (0 : Int) 5).1 (by decide)).1⟩,
   ⟨by decide,
     ((advance_operation_counts false positionOps.toInputOps positionOps.toBidirOps
        positionOps (0 : Int) (-2)).2.1 (by decide)).1⟩⟩

/-- C10, as stated, fails on the source as written (no `NDEBUG`): Tier 1
called on the position cursor with offset -1 checks the offset and ends in
the failure of `assert(n >= 0)`. -/
theorem advance_v1_negative_counterexample :
    advance_v1 false positionOps.toInputOps 0 (-1) = Except.error Failure.assertFailed := by
  simp [advance_v1]

/-- C10 (amended). Tier 1 called with `n < 0`: the only check is the
`assert(n >= 0)`. With assertions enabled every such call ends in the
assertion failure (an abort, no cursor is returned); with `NDEBUG` nothing is
checked, no error is reported, and the call returns with the cursor unchanged
and no call of `++`. -/
theorem advance_v1_negative {I : Type} (ops : InputOps I) (c : I) (n : Int) (hn : n < 0) :
    advance_v1 false ops c n = Except.error Failure.assertFailed ∧
    advance_v1 true ops c n = Except.ok c ∧
    advance_v1 true (countedInput ops) (Counted.start c) n = Except.ok (Counted.start c) := by
  have hd : decide (n ≥ 0) = false := decide_eq_false (by omega)
  refine ⟨?_, ?_, ?_⟩
  · simp [advance_v1, hd]
  · simp [advance_v1, incLoop_nonpos _ _ n (le_of_lt hn)]
  · simp [advance_v1, incLoop_nonpos _ _ n (le_of_lt hn)]

/-- Witness of C10 (amended): the position cursor at 3 and the offset -4. -/
theorem advance_v1_negative_witness :
    (-4 : Int) < 0 ∧
      (advance_v1 false positionOps.toInputOps 3 (-4) = Except.error Failure.assertFailed ∧
       advance_v1 true positionOps.toInputOps 3 (-4) = Except.ok 3 ∧
       advance_v1 true (countedInput positionOps.toInputOps) (Counted.start 3) (-4)
         = Except.ok (Counted.start 3)) :=
  ⟨by decide, advance_v1_negative positionOps.toInputOps 3 (-4) (by decide)⟩

/-! ### The concepts and their normal forms -/

section Concepts

variable {Ty : Type}

theorem satisfied_append (F : cpt.Facts Ty) (X : Ty) (p q : List Constraint) :
    satisfied F X (p ++ q) = (satisfied F X p && satisfied F X q) := by
  simp [satisfied, List.all_append]

theorem satisfied_readable (F : cpt.Facts Ty) (X : Ty) :
    satisfied F X normal.Readable = cpt.Readable F X := by
  simp [satisfied, satisfies, typeOf, onSelf, normal.Readable, normal.Semiregular,
    normal.DefaultConstructible, normal.Copyable, normal.Destructible, normal.Allocatable,
    cpt.Readable, cpt.Semiregular, cpt.DefaultConstructible, cpt.Copyable, cpt.Destructible,
    cpt.Allocatable, Bool.and_assoc]

theorem satisfied_readable_postinc (F : cpt.Facts Ty) (X : Ty) :
    satisfied F X (retarget .postincDecay normal.Readable) =
      (match F.postincDecay X with
       | some P => cpt.Readable F P
       | none => false) := by
  cases h : F.postincDecay X <;>
  simp [satisfied, satisfies, typeOf, onSelf, retarget, h, normal.Readable, normal.Semiregular,
    normal.DefaultConstructible, normal.Copyable, normal.Destructible, normal.Allocatable,
    cpt.Readable, cpt.Semiregular, cpt.DefaultConstructible, cpt.Copyable, cpt.Destructible,
    cpt.Allocatable, Bool.and_assoc]

theorem satisfied_signed_minus (F : cpt.Facts Ty) (X : Ty) :
    satisfied F X (retarget .minusDeduced normal.SignedIntegral) =
      (match F.minusDeduced X with
       | some D => cpt.SignedIntegral F D
       | none => false) := by
  cases h : F.minusDeduced X <;>
  simp [satisfied, satisfies, typeOf, onSelf, retarget, h, normal.SignedIntegral,
    normal.Integral, cpt.SignedIntegral, cpt.Integral]

theorem satisfied_weakIterator (F : cpt.Facts Ty) (X : Ty) :
    satisfied F X normal.WeakIterator = cpt.WeakIterator F X := by
  simp [satisfied, satisfies, typeOf, onSelf, normal.WeakIterator, normal.WeaklyIncrementable,
    normal.Copyable, cpt.WeakIterator, cpt.WeaklyIncrementable, cpt.Copyable, Bool.and_assoc]

theorem satisfied_equalityComparable (F : cpt.Facts Ty) (X : Ty) :
    satisfied F X normal.EqualityComparable = cpt.EqualityComparable F X := by
  simp [satisfied, satisfies, typeOf, onSelf, normal.EqualityComparable, cpt.EqualityComparable]

theorem satisfied_inputIterator (F : cpt.Facts Ty) (X : Ty) :
    satisfied F X normal.InputIterator = cpt.InputIterator F X := by
  simp only [normal.InputIterator, normal.WeakInputIterator, normal.Iterator, satisfied_append,
    satisfied_readable, satisfied_readable_postinc, satisfied_weakIterator,
    satisfied_equalityComparable, cpt.InputIterator, cpt.WeakInputIterator, cpt.Iterator]
  simp [satisfied, satisfies, typeOf, onSelf]

theorem satisfied_incrementable (F : cpt.Facts Ty) (X : Ty) :
    satisfied F X normal.Incrementable = cpt.Incrementable F X := by
  simp [satisfied, satisfies, typeOf, onSelf, normal.Incrementable, normal.Regular,
    normal.Semiregular, normal.EqualityComparable, normal.WeaklyIncrementable,
    normal.DefaultConstructible, normal.Copyable, normal.Destructible, normal.Allocatable,
    cpt.Incrementable, cpt.Regular, cpt.Semiregular, cpt.EqualityComparable,
    cpt.WeaklyIncrementable, cpt.DefaultConstructible, cpt.Copyable, cpt.Destructible,
    cpt.Allocatable, Bool.and_assoc]

theorem satisfied_forwardIterator (F : cpt.Facts Ty) (X : Ty) :
    satisfied F X normal.ForwardIterator = cpt.ForwardIterator F X := by
  simp only [normal.ForwardIterator, satisfied_append, satisfied_inputIterator,
    satisfied_incrementable, cpt.ForwardIterator]
  simp [satisfied, satisfies, typeOf, onSelf]

theorem satisfied_bidirectionalIterator (F : cpt.Facts Ty) (X : Ty) :
    satisfied F X normal.BidirectionalIterator = cpt.BidirectionalIterator F X := by
  simp only [normal.BidirectionalIterator, satisfied_append, satisfied_forwardIterator,
    cpt.BidirectionalIterator]
  simp [satisfied, satisfies, typeOf, onSelf, Bool.and_assoc]

theorem satisfied_totallyOrdered (F : cpt.Facts Ty) (X : Ty) :
    satisfied F X normal.TotallyOrdered = cpt.TotallyOrdered F X := by
  simp [satisfied, satisfies, typeOf, onSelf, normal.TotallyOrdered, normal.WeaklyOrdered,
    normal.EqualityComparable, cpt.TotallyOrdered, cpt.WeaklyOrdered, cpt.EqualityComparable,
    Bool.and_assoc]

theorem satisfied_randomAccessIterator (F : cpt.Facts Ty) (X : Ty) :
    satisfied F X normal.RandomAccessIterator = cpt.RandomAccessIterator F X := by
  simp only [normal.RandomAccessIterator, satisfied_append, satisfied_bidirectionalIterator,
    satisfied_totallyOrdered, satisfied_signed_minus, cpt.RandomAccessIterator]
  simp [satisfied, satisfies, typeOf, onSelf, Bool.and_assoc]

/-- The normal form of an overload's constraint is satisfied exactly when its
gating concept holds. -/
theorem satisfied_constraint (o : Overload) (F : cpt.Facts Ty) (X : Ty) :
    satisfied F X o.constraint = o.gate F X := by
  cases o
  · exact satisfied_inputIterator F X
  · exact satisfied_bidirectionalIterator F X
  · exact satisfied_randomAccessIterator F X

theorem randomAccess_bidirectional (F : cpt.Facts Ty) (X : Ty)
    (h : cpt.RandomAccessIterator F X = true) : cpt.BidirectionalIterator F X = true := by
  simp only [cpt.RandomAccessIterator, Bool.and_eq_true] at h
  exact h.1.1.1.1.1.1.1.1.1

theorem bidirectional_forward (F : cpt.Facts Ty) (X : Ty)
    (h : cpt.BidirectionalIterator F X = true) : cpt.ForwardIterator F X = true := by
  simp only [cpt.BidirectionalIterator, Bool.and_eq_true] at h
  exact h.1.1.1.1

theorem forward_input (F : cpt.Facts Ty) (X : Ty)
    (h : cpt.ForwardIterator F X = true) : cpt.InputIterator F X = true := by
  simp only [cpt.ForwardIterator, Bool.and_eq_true] at h
  exact h.1.1

theorem input_weak (F : cpt.Facts Ty) (X : Ty)
    (h : cpt.InputIterator F X = true) : cpt.WeakIterator F X = true := by
  simp only [cpt.InputIterator, cpt.WeakInputIterator, Bool.and_eq_true] at h
  exact h.1.1.1.1

theorem bidirectional_input (F : cpt.Facts Ty) (X : Ty)
    (h : cpt.BidirectionalIterator F X = true) : cpt.InputIterator F X = true :=
  forward_input F X (bidirectional_forward F X h)

theorem mem_viable (F : cpt.Facts Ty) (X : Ty) (o : Overload) :
    o ∈ viable F X ↔ o.gate F X = true := by
  cases o <;> simp [viable, List.mem_filter]

theorem resolve_eq (F : cpt.Facts Ty) (X : Ty) :
    resolve F X =
      if cpt.RandomAccessIterator F X then some Overload.v3
      else if cpt.BidirectionalIterator F X then some Overload.v2
      else if cpt.InputIterator F X then some Overload.v1
      else none := by
  have h32 : moreConstrained .v3 .v2 = true := by decide
  have h31 : moreConstrained .v3 .v1 = true := by decide
  have h21 : moreConstrained .v2 .v1 = true := by decide
  have h23 : moreConstrained .v2 .v3 = false := by decide
  have h13 : moreConstrained .v1 .v3 = false := by decide
  have h12 : moreConstrained .v1 .v2 = false := by decide
  have e12 : (Overload.v1 == Overload.v2) = false := by decide
  have e13 : (Overload.v1 == Overload.v3) = false := by decide
  have e21 : (Overload.v2 == Overload.v1) = false := by decide
  have e23 : (Overload.v2 == Overload.v3) = false := by decide
  have e31 : (Overload.v3 == Overload.v1) = false := by decide
  have e32 : (Overload.v3 == Overload.v2) = false := by decide
  have hrb := randomAccess_bidirectional F X
  have hbi := bidirectional_input F X
  cases h3 : cpt.RandomAccessIterator F X <;> cases h2 : cpt.BidirectionalIterator F X <;>
    cases h1 : cpt.InputIterator F X <;>
    simp_all [resolve, viable, Overload.gate, List.filter]
  rfl

theorem gateImplies_refl (a : Overload) : GateImplies a a :=
  fun _ _ _ h => h

theorem gateImplies_v2_v1 : GateImplies .v2 .v1 :=
  fun _ F X h => bidirectional_input F X h

theorem gateImplies_v3_v2 : GateImplies .v3 .v2 :=
  fun _ F X h => randomAccess_bidirectional F X h

theorem gateImplies_v3_v1 : GateImplies .v3 .v1 :=
  fun _ F X h => bidirectional_input F X (randomAccess_bidirectional F X h)

theorem not_gateImplies_v1_v2 : ¬ GateImplies .v1 .v2 :=
  fun h => absurd (h StdTy stdFacts .forward_list_iterator (by decide)) (by decide)

theorem not_gateImplies_v1_v3 : ¬ GateImplies .v1 .v3 :=
  fun h => absurd (h StdTy stdFacts .forward_list_iterator (by decide)) (by decide)

theorem not_gateImplies_v2_v3 : ¬ GateImplies .v2 .v3 :=
  fun h => absurd (h StdTy stdFacts .list_iterator (by decide)) (by decide)

theorem gateImplies_total (a b : Overload) : GateImplies a b ∨ GateImplies b a := by
  cases a <;> cases b
  · exact Or.inl (gateImplies_refl _)
  · exact Or.inr gateImplies_v2_v1
  · exact Or.inr gateImplies_v3_v1
  · exact Or.inl gateImplies_v2_v1
  · exact Or.inl (gateImplies_refl _)
  · exact Or.inr gateImplies_v3_v2
  · exact Or.inl gateImplies_v3_v1
  · exact Or.inl gateImplies_v3_v2
  · exact Or.inl (gateImplies_refl _)

theorem gateImplies_antisymm (a b : Overload) (hab : GateImplies a b)
    (hba : GateImplies b a) : a = b := by
  cases a <;> cases b <;> first
    | rfl
    | exact absurd hab not_gateImplies_v1_v2
    | exact absurd hab not_gateImplies_v1_v3
    | exact absurd hab not_gateImplies_v2_v3
    | exact absurd hba not_gateImplies_v1_v2
    | exact absurd hba not_gateImplies_v1_v3
    | exact absurd hba not_gateImplies_v2_v3

/-- The strongest overload whose gate holds, when one does. -/
theorem strongest_spec (F : cpt.Facts Ty) (X : Ty)
    (h : cpt.InputIterator F X = true ∨ cpt.BidirectionalIterator F X = true ∨
      cpt.RandomAccessIterator F X = true) :
    (if cpt.RandomAccessIterator F X then Overload.v3
      else if cpt.BidirectionalIterator F X then Overload.v2 else Overload.v1) ∈ viable F X ∧
    ∀ o' ∈ viable F X,
      GateImplies (if cpt.RandomAccessIterator F X then Overload.v3
        else if cpt.BidirectionalIterator F X then Overload.v2 else Overload.v1) o' := by
  have hrb := randomAccess_bidirectional F X
  have hbi := bidirectional_input F X
  simp only [mem_viable]
  cases h3 : cpt.RandomAccessIterator F X
  · cases h2 : cpt.BidirectionalIterator F X
    · have h1 : cpt.InputIterator F X = true := by simp_all
      refine ⟨by simpa [Overload.gate] using h1, fun o' ho' => ?_⟩
      cases o'
      · exact gateImplies_refl _
      · simp [Overload.gate, h2] at ho'
      · simp [Overload.gate, h3] at ho'
    · refine ⟨by simpa [Overload.gate] using h2, fun o' ho' => ?_⟩
      cases o'
      · exact gateImplies_v2_v1
      · exact gateImplies_refl _
      · simp [Overload.gate, h3] at ho'
  · refine ⟨by simpa [Overload.gate] using h3, fun o' _ => ?_⟩
    cases o'
    · exact gateImplies_v3_v1
    · exact gateImplies_v3_v2
    · exact gateImplies_refl _

end Concepts

/-! ## Theorems of Part B -/

/-- C5. Tier selection: for every type that satisfies at least one of
InputIterator, BidirectionalIterator, RandomAccessIterator, any two overloads
of `advance` whose gating predicate holds are comparable by implication of
their gating predicates, exactly one of them implies all the others, and it is
the overload the call resolves to: v3 if RandomAccessIterator holds, otherwise
v2 if BidirectionalIterator holds, otherwise v1. -/
theorem advance_tier_selection {Ty : Type} (F : cpt.Facts Ty) (X : Ty)
    (h : cpt.InputIterator F X = true ∨ cpt.BidirectionalIterator F X = true ∨
      cpt.RandomAccessIterator F X = true) :
    (∀ a ∈ viable F X, ∀ b ∈ viable F X, GateImplies a b ∨ GateImplies b a) ∧
    (∃! o, o ∈ viable F X ∧ ∀ o' ∈ viable F X, GateImplies o o') ∧
    resolve F X = some (if cpt.RandomAccessIterator F X then Overload.v3
      else if cpt.BidirectionalIterator F X then Overload.v2 else Overload.v1) ∧
    (∀ o, resolve F X = some o →
      o ∈ viable F X ∧ ∀ o' ∈ viable F X, GateImplies o o') := by
  have hs := strongest_spec F X h
  have hres : resolve F X = some (if cpt.RandomAccessIterator F X then Overload.v3
      else if cpt.BidirectionalIterator F X then Overload.v2 else Overload.v1) := by
    rw [resolve_eq]
    have hrb := randomAccess_bidirectional F X
    have hbi := bidirectional_input F X
    cases h3 : cpt.RandomAccessIterator F X <;> cases h2 : cpt.BidirectionalIterator F X <;>
      cases h1 : cpt.InputIterator F X <;> simp_all
  refine ⟨fun a _ b _ => gateImplies_total a b, ⟨_, hs, ?_⟩, hres, ?_⟩
  · intro o ho
    exact gateImplies_antisymm _ _ (ho.2 _ hs.1) (hs.2 _ ho.1)
  · intro o ho
    rw [hres] at ho
    cases ho
    exact hs

/-- Witness of C5: the three cursor types of `main` resolve to v1, v2, v3. -/
theorem advance_tier_selection_witness :
    resolve stdFacts StdTy.forward_list_iterator = some Overload.v1 ∧
    resolve stdFacts StdTy.list_iterator = some Overload.v2 ∧
    resolve stdFacts StdTy.vector_iterator = some Overload.v3 :=
  ⟨(advance_tier_selection stdFacts StdTy.forward_list_iterator (Or.inl (by decide))).2.2.1,
   (advance_tier_selection stdFacts StdTy.list_iterator (Or.inl (by decide))).2.2.1,
   (advance_tier_selection stdFacts StdTy.vector_iterator (Or.inl (by decide))).2.2.1⟩

/-- C7. The cursor predicates form an implication chain: for every type `X`,
RandomAccessIterator implies BidirectionalIterator, which implies
ForwardIterator, which implies InputIterator, which implies WeakIterator; and
Regular implies both Semiregular and EqualityComparable. -/
theorem concept_implication_chain {Ty : Type} (F : cpt.Facts Ty) (X : Ty) :
    (cpt.RandomAccessIterator F X = true → cpt.BidirectionalIterator F X = true) ∧
    (cpt.BidirectionalIterator F X = true → cpt.ForwardIterator F X = true) ∧
    (cpt.ForwardIterator F X = true → cpt.InputIterator F X = true) ∧
    (cpt.InputIterator F X = true → cpt.WeakIterator F X = true) ∧
    (cpt.Regular F X = true →
      cpt.Semiregular F X = true ∧ cpt.EqualityComparable F X = true) := by
  refine ⟨randomAccess_bidirectional F X, bidirectional_forward F X, forward_input F X,
    input_weak F X, fun h => ?_⟩
  simpa [cpt.Regular] using h

/-- Witness of C7: `std::vector<int>::iterator` satisfies the whole chain and `int` is Regular. -/
theorem concept_implication_chain_witness :
    cpt.RandomAccessIterator stdFacts StdTy.vector_iterator = true ∧
    cpt.BidirectionalIterator stdFacts StdTy.vector_iterator = true ∧
    cpt.Regular stdFacts StdTy.int = true ∧
    (cpt.Semiregular stdFacts StdTy.int = true ∧
      cpt.EqualityComparable stdFacts StdTy.int = true) :=
  ⟨by decide,
   (concept_implication_chain stdFacts StdTy.vector_iterator).1 (by decide),
   by decide,
   (concept_implication_chain stdFacts StdTy.int).2.2.2.2 (by decide)⟩

/-- C9. No matching specialization: a call of `advance` on a type `X` resolves
to an overload if and only if InputIterator holds of `X`; when InputIterator,
BidirectionalIterator and RandomAccessIterator are all false no overload is
viable and the call resolves to none. -/
theorem advance_resolves_iff_input {Ty : Type} (F : cpt.Facts Ty) (X : Ty) :
    ((∃ o, resolve F X = some o) ↔ cpt.InputIterator F X = true) ∧
    (cpt.InputIterator F X = false → cpt.BidirectionalIterator F X = false →
      cpt.RandomAccessIterator F X = false →
      viable F X = [] ∧ resolve F X = none) := by
  have hrb := randomAccess_bidirectional F X
  have hbi := bidirectional_input F X
  constructor
  · rw [resolve_eq]
    cases h3 : cpt.RandomAccessIterator F X <;> cases h2 : cpt.BidirectionalIterator F X <;>
      cases h1 : cpt.InputIterator F X <;> simp_all
  · intro h1 h2 h3
    refine ⟨?_, by rw [resolve_eq]; simp [h1, h2, h3]⟩
    simp [viable, Overload.gate, h1, h2, h3]

/-- Witness of C9: `int` satisfies no gating predicate and `advance` on it resolves to none. -/
theorem advance_resolves_iff_input_witness :
    cpt.InputIterator stdFacts StdTy.int = false ∧
    cpt.BidirectionalIterator stdFacts StdTy.int = false ∧
    cpt.RandomAccessIterator stdFacts StdTy.int = false ∧
    (viable stdFacts StdTy.int = [] ∧ resolve stdFacts StdTy.int = none) :=
  ⟨by decide, by decide, by decide,
   (advance_resolves_iff_input stdFacts StdTy.int).2 (by decide) (by decide) (by decide)⟩

/-- C11. Negative propagation of equality: for every type `X` for which
EqualityComparable is false, Regular, Iterator, OutputIterator, InputIterator,
ForwardIterator, BidirectionalIterator, RandomAccessIterator, TotallyOrdered
and Incrementable are all false. -/
theorem not_equalityComparable_propagates {Ty : Type} (F : cpt.Facts Ty) (X : Ty)
    (h : cpt.EqualityComparable F X = false) :
    cpt.Regular F X = false ∧ cpt.Iterator F X = false ∧ cpt.OutputIterator F X = false ∧
    cpt.InputIterator F X = false ∧ cpt.ForwardIterator F X = false ∧
    cpt.BidirectionalIterator F X = false ∧ cpt.RandomAccessIterator F X = false ∧
    cpt.TotallyOrdered F X = false ∧ cpt.Incrementable F X = false := by
  have hReg : cpt.Regular F X = false := by simp [cpt.Regular, h]
  have hIt : cpt.Iterator F X = false := by simp [cpt.Iterator, h]
  have hOut : cpt.OutputIterator F X = false := by simp [cpt.OutputIterator, hIt]
  have hIn : cpt.InputIterator F X = false := by simp [cpt.InputIterator, hIt]
  have hFwd : cpt.ForwardIterator F X = false := by simp [cpt.ForwardIterator, hIn]
  have hBi : cpt.BidirectionalIterator F X = false := by
    simp [cpt.BidirectionalIterator, hFwd]
  have hRa : cpt.RandomAccessIterator F X = false := by
    simp [cpt.RandomAccessIterator, hBi]
  have hTo : cpt.TotallyOrdered F X = false := by simp [cpt.TotallyOrdered, h]
  have hInc : cpt.Incrementable F X = false := by simp [cpt.Incrementable, hReg]
  exact ⟨hReg, hIt, hOut, hIn, hFwd, hBi, hRa, hTo, hInc⟩

/-- Witness of C11: a type with every capability of `std::vector<int>::iterator`
except `==` and `!=`. -/
theorem not_equalityComparable_propagates_witness :
    cpt.EqualityComparable vectorWithoutEquality StdTy.vector_iterator = false ∧
    cpt.Regular vectorWithoutEquality StdTy.vector_iterator = false ∧
    cpt.RandomAccessIterator vectorWithoutEquality StdTy.vector_iterator = false :=
  ⟨by decide,
   (not_equalityComparable_propagates vectorWithoutEquality StdTy.vector_iterator
      (by decide)).1,
   (not_equalityComparable_propagates vectorWithoutEquality StdTy.vector_iterator
      (by decide)).2.2.2.2.2.2.1⟩

/-- C12. The forward/bidirectional step of the chain is strict: every type
that satisfies ForwardIterator but lacks a well-formed pre-decrement or a
well-formed post-decrement fails BidirectionalIterator, and there is an
assignment of primitive capabilities, with both increments and neither
decrement, that satisfies ForwardIterator and fails BidirectionalIterator. -/
theorem forward_bidirectional_strict :
    (∀ (Ty : Type) (F : cpt.Facts Ty) (X : Ty), cpt.ForwardIterator F X = true →
      (F.holds .predec_ref X = false ∨ F.holds .postdec_value X = false) →
      cpt.BidirectionalIterator F X = false) ∧
    (∃ (Ty : Type) (F : cpt.Facts Ty) (X : Ty),
      cpt.ForwardIterator F X = true ∧ cpt.BidirectionalIterator F X = false ∧
      F.holds .preinc_ref X = true ∧ F.holds .postinc_value X = true ∧
      F.holds .predec_ref X = false ∧ F.holds .postdec_value X = false) := by
  constructor
  · intro Ty F X _ h
    rcases h with h | h <;> simp [cpt.BidirectionalIterator, h]
  · exact ⟨StdTy, stdFacts, StdTy.forward_list_iterator, by decide, by decide, by decide,
      by decide, by decide, by decide⟩

/-- Witness of C12: `std::forward_list<int>::iterator` is a ForwardIterator
without pre-decrement and fails BidirectionalIterator. -/
theorem forward_bidirectional_strict_witness :
    cpt.ForwardIterator stdFacts StdTy.forward_list_iterator = true ∧
    stdFacts.holds .predec_ref StdTy.forward_list_iterator = false ∧
    cpt.BidirectionalIterator stdFacts StdTy.forward_list_iterator = false :=
  ⟨by decide, by decide,
   forward_bidirectional_strict.1 StdTy stdFacts StdTy.forward_list_iterator (by decide)
     (Or.inl (by decide))⟩

theorem uses_line_lt (a : cpt.Name) : ∀ b ∈ a.uses, b.line < a.line := by
  cases a <;> decide

theorem dependsOn_line_lt {a b : cpt.Name} (h : a.DependsOn b) : b.line < a.line := by
  induction h with
  | single h => exact uses_line_lt _ _ h
  | tail _ h ih => exact lt_trans (uses_line_lt _ _ h) ih

/-- C13. The dependency graph of the concepts is acyclic: every concept of
namespace `cpt` names only concepts defined earlier in the file, so the
relation "A has B as a direct or transitive conjunct" is a strict partial
order (irreflexive and transitive), and no two concepts each have the other as
a conjunct. -/
theorem concept_dependencies_acyclic :
    (∀ a b : cpt.Name, a.Uses b → b.line < a.line) ∧
    (∀ a : cpt.Name, ¬ a.DependsOn a) ∧
    (∀ a b c : cpt.Name, a.DependsOn b → b.DependsOn c → a.DependsOn c) ∧
    (∀ a b : cpt.Name, a.DependsOn b → ¬ b.DependsOn a) := by
  refine ⟨fun a b h => uses_line_lt a b h, fun a h => ?_, fun a b c hab hbc => ?_,
    fun a b hab hba => ?_⟩
  · exact lt_irrefl _ (dependsOn_line_lt h)
  · exact Relation.TransGen.trans hab hbc
  · exact lt_irrefl _ (lt_trans (dependsOn_line_lt hab) (dependsOn_line_lt hba))

/-- Witness of C13: RandomAccessIterator has EqualityComparable as a
transitive conjunct (through TotallyOrdered) and not the other way round. -/
theorem concept_dependencies_acyclic_witness :
    cpt.Name.DependsOn .RandomAccessIterator .EqualityComparable ∧
    ¬ cpt.Name.DependsOn .EqualityComparable .RandomAccessIterator :=
  have h : cpt.Name.DependsOn .RandomAccessIterator .EqualityComparable :=
    Relation.TransGen.tail
      (Relation.TransGen.single
        (show cpt.Name.Uses .RandomAccessIterator .TotallyOrdered by
          unfold cpt.Name.Uses; decide))
      (show cpt.Name.Uses .TotallyOrdered .EqualityComparable by
        unfold cpt.Name.Uses; decide)
  ⟨h, concept_dependencies_acyclic.2.2.2 _ _ h⟩

/-- C14. EqualityComparable2 requires each side individually and both
directions: for all types `X` and `Y`, EqualityComparable2(X, Y) implies
EqualityComparable(X) and EqualityComparable(Y), and EqualityComparable2(X, Y)
holds if and only if EqualityComparable2(Y, X) holds. -/
theorem equalityComparable2_sides_and_symm {Ty : Type} (F : cpt.Facts Ty)
    (G : cpt.CrossFacts Ty) (X Y : Ty) :
    (cpt.EqualityComparable2 F G X Y = true →
      cpt.EqualityComparable F X = true ∧ cpt.EqualityComparable F Y = true) ∧
    (cpt.EqualityComparable2 F G X Y = true ↔ cpt.EqualityComparable2 F G Y X = true) := by
  simp only [cpt.EqualityComparable2, Bool.and_eq_true]
  constructor
  · intro h
    exact ⟨h.1.1.1.1.1, h.1.1.1.1.2⟩
  · constructor
    · intro h
      exact ⟨⟨⟨⟨⟨h.1.1.1.1.2, h.1.1.1.1.1⟩, h.1.1.2⟩, h.1.1.1.2⟩, h.2⟩, h.1.2⟩
    · intro h
      exact ⟨⟨⟨⟨⟨h.1.1.1.1.2, h.1.1.1.1.1⟩, h.1.1.2⟩, h.1.1.1.2⟩, h.2⟩, h.1.2⟩

/-- Witness of C14: `int` and `std::ptrdiff_t` compare with each other. -/
theorem equalityComparable2_sides_and_symm_witness :
    cpt.EqualityComparable2 stdFacts stdCross StdTy.int StdTy.ptrdiff = true ∧
    (cpt.EqualityComparable stdFacts StdTy.int = true ∧
      cpt.EqualityComparable stdFacts StdTy.ptrdiff = true) ∧
    cpt.EqualityComparable2 stdFacts stdCross StdTy.ptrdiff StdTy.int = true :=
  ⟨by decide,
   (equalityComparable2_sides_and_symm stdFacts stdCross StdTy.int StdTy.ptrdiff).1 (by decide),
   (equalityComparable2_sides_and_symm stdFacts stdCross StdTy.int StdTy.ptrdiff).2.1
     (by decide)⟩

/-- C17. Every InputIterator is already Regular: for every type `X`,
InputIterator implies Regular and WeaklyIncrementable, so given InputIterator
the Incrementable conjunct of ForwardIterator holds exactly when
post-increment yields `X` (`{x++} -> X`); likewise OutputIterator implies
Regular. -/
theorem inputIterator_regular {Ty : Type} (F : cpt.Facts Ty) (X : Ty) :
    (cpt.InputIterator F X = true →
      cpt.Regular F X = true ∧ cpt.Semiregular F X = true ∧
      cpt.EqualityComparable F X = true ∧ cpt.WeaklyIncrementable F X = true) ∧
    (cpt.InputIterator F X = true →
      (cpt.Incrementable F X = true ↔ F.holds .postinc_value X = true)) ∧
    (cpt.ForwardIterator F X = true ↔
      cpt.InputIterator F X = true ∧ F.holds .postinc_value X = true ∧
      F.holds .category_forward X = true) ∧
    (cpt.OutputIterator F X = true → cpt.Regular F X = true) := by
  have hin : cpt.InputIterator F X = true →
      cpt.Regular F X = true ∧ cpt.Semiregular F X = true ∧
      cpt.EqualityComparable F X = true ∧ cpt.WeaklyIncrementable F X = true := by
    intro h
    simp only [cpt.InputIterator, cpt.WeakInputIterator, cpt.Iterator, cpt.WeakIterator,
      cpt.Readable, Bool.and_eq_true] at h
    obtain ⟨⟨⟨⟨⟨⟨hw, _⟩, _⟩, ⟨hs, _⟩⟩, _⟩, ⟨_, he⟩⟩, _⟩ := h
    exact ⟨by simp [cpt.Regular, hs, he], hs, he, hw⟩
  have hinc : cpt.InputIterator F X = true →
      (cpt.Incrementable F X = true ↔ F.holds .postinc_value X = true) := by
    intro h
    obtain ⟨hr, _, _, hw⟩ := hin h
    simp [cpt.Incrementable, hr, hw]
  refine ⟨hin, hinc, ?_, ?_⟩
  · constructor
    · intro h
      have h' := h
      simp only [cpt.ForwardIterator, Bool.and_eq_true] at h'
      exact ⟨h'.1.1, (hinc h'.1.1).1 h'.1.2, h'.2⟩
    · rintro ⟨h1, h2, h3⟩
      simp [cpt.ForwardIterator, h1, (hinc h1).2 h2, h3]
  · intro h
    simp only [cpt.OutputIterator, cpt.WeakOutputIterator, cpt.Writable, cpt.Iterator,
      Bool.and_eq_true] at h
    obtain ⟨⟨⟨hs, _⟩, _⟩, ⟨_, he⟩⟩ := h
    simp [cpt.Regular, hs, he]

/-- Witness of C17: `std::forward_list<int>::iterator` is an InputIterator, hence Regular. -/
theorem inputIterator_regular_witness :
    cpt.InputIterator stdFacts StdTy.forward_list_iterator = true ∧
    cpt.Regular stdFacts StdTy.forward_list_iterator = true ∧
    cpt.OutputIterator stdFacts StdTy.list_iterator = true ∧
    cpt.Regular stdFacts StdTy.list_iterator = true :=
  ⟨by decide,
   ((inputIterator_regular stdFacts StdTy.forward_list_iterator).1 (by decide)).1,
   by decide,
   (inputIterator_regular stdFacts StdTy.list_iterator).2.2.2 (by decide)⟩

/-! ### The loops with a fixed-width counter -/

theorem two_pow_pos_int (bits : Nat) : (0 : Int) < (2 : Int) ^ (bits - 1) := by
  positivity

theorem counterDec_succ (bits k : Nat) (h : DiffRange bits ((k + 1 : Nat) : Int)) :
    counterDec bits ((k + 1 : Nat) : Int) = some (k : Int) ∧ DiffRange bits (k : Int) := by
  have hp := two_pow_pos_int bits
  have hk : DiffRange bits (k : Int) := by
    unfold DiffRange at h ⊢
    constructor <;> omega
  have he : ((k + 1 : Nat) : Int) - 1 = (k : Int) := by omega
  refine ⟨?_, hk⟩
  unfold counterDec
  rw [he, if_pos hk]

theorem counterInc_neg_succ (bits k : Nat) (h : DiffRange bits (-((k + 1 : Nat) : Int))) :
    counterInc bits (-((k + 1 : Nat) : Int)) = some (-(k : Int)) ∧
      DiffRange bits (-(k : Int)) := by
  have hp := two_pow_pos_int bits
  have hk : DiffRange bits (-(k : Int)) := by
    unfold DiffRange at h ⊢
    constructor <;> omega
  have he : -((k + 1 : Nat) : Int) + 1 = -(k : Int) := by omega
  refine ⟨?_, hk⟩
  unfold counterInc
  rw [he, if_pos hk]

theorem incLoopRun_natCast {I : Type} (bits : Nat) (f : I → I) :
    ∀ (fuel k : Nat) (i : I), DiffRange bits (k : Int) → k ≤ fuel →
      incLoopRun bits f fuel i (k : Int) = Except.ok (f^[k] i, downFrom k) := by
  intro fuel
  induction fuel with
  | zero =>
    intro k i _ hk
    obtain rfl : k = 0 := by omega
    simp [incLoopRun, downFrom]
  | succ fuel ih =>
    intro k i hr hk
    cases k with
    | zero => simp [incLoopRun, downFrom]
    | succ k =>
      obtain ⟨hd, hr'⟩ := counterDec_succ bits k hr
      have hpos : (0 : Int) < ((k + 1 : Nat) : Int) := by omega
      rw [incLoopRun, if_pos hpos, hd]
      simp only []
      rw [ih k (f i) hr' (by omega)]
      simp [downFrom]

theorem decLoopRun_neg_natCast {I : Type} (bits : Nat) (f : I → I) :
    ∀ (fuel k : Nat) (i : I), DiffRange bits (-(k : Int)) → k ≤ fuel →
      decLoopRun bits f fuel i (-(k : Int)) = Except.ok (f^[k] i, upFrom k) := by
  intro fuel
  induction fuel with
  | zero =>
    intro k i _ hk
    obtain rfl : k = 0 := by omega
    simp [decLoopRun, upFrom]
  | succ fuel ih =>
    intro k i hr hk
    cases k with
    | zero => simp [decLoopRun, upFrom]
    | succ k =>
      obtain ⟨hd, hr'⟩ := counterInc_neg_succ bits k hr
      have hneg : -((k + 1 : Nat) : Int) < 0 := by omega
      rw [decLoopRun, if_pos hneg, hd]
      simp only []
      rw [ih k (f i) hr' (by omega)]
      simp [upFrom]

theorem downFrom_head (k : Nat) : (downFrom k).head? = some (k : Int) := by
  cases k <;> simp [downFrom]

theorem upFrom_head (k : Nat) : (upFrom k).head? = some (-(k : Int)) := by
  cases k <;> simp [upFrom]

theorem downFrom_shape (k : Nat) :
    List.Chain' (fun a b : Int => b = a - 1) (downFrom k) ∧
      (downFrom k).head? = some (k : Int) ∧ (downFrom k).getLast? = some 0 := by
  induction k with
  | zero => simp [downFrom]
  | succ k ih =>
    refine ⟨?_, downFrom_head _, ?_⟩
    · refine List.Chain'.cons' ih.1 ?_
      intro y hy
      rw [downFrom_head] at hy
      cases hy
      push_cast; ring
    · cases k with
      | zero => simp [downFrom]
      | succ k =>
        have := ih.2.2
        simp only [downFrom] at this ⊢
        rw [List.getLast?_cons_cons]; exact this

theorem upFrom_shape (k : Nat) :
    List.Chain' (fun a b : Int => b = a + 1) (upFrom k) ∧
      (upFrom k).head? = some (-(k : Int)) ∧ (upFrom k).getLast? = some 0 := by
  induction k with
  | zero => simp [upFrom]
  | succ k ih =>
    refine ⟨?_, upFrom_head _, ?_⟩
    · refine List.Chain'.cons' ih.1 ?_
      intro y hy
      rw [upFrom_head] at hy
      cases hy
      push_cast; ring
    · cases k with
      | zero => simp [upFrom]
      | succ k =>
        have := ih.2.2
        simp only [upFrom] at this ⊢
        rw [List.getLast?_cons_cons]; exact this

/-- C15. Every overload of `advance` terminates for every offset `n` of a
fixed-width signed difference type and its loop counter never overflows: with
fuel for `|n|` iterations the run of v1 and of v2 ends normally with the
cursor of the loop; for `n ≥ 0` the counter takes the values `n, n - 1, ..., 0`
and for `n < 0` (the minimum of the type included) the values
`n, n + 1, ..., 0`; v1 with `n < 0` ends at once (at the assertion, or with
`NDEBUG` at the first loop test); v3 is the single statement `i += n`. -/
theorem advance_terminates_without_overflow {I : Type} (bits : Nat) (ndebug : Bool)
    (ops1 : InputOps I) (ops2 : BidirOps I) (ops3 : RandomOps I) (c : I) (n : Int)
    (hn : DiffRange bits n) :
    (0 ≤ n → ∀ fuel : Nat, n.toNat ≤ fuel →
      advance_v1_run bits ndebug ops1 fuel c n =
        Except.ok (ops1.preinc^[n.toNat] c, downFrom n.toNat) ∧
      advance_v2_run bits ops2 fuel c n =
        Except.ok (advance_v2 ops2 c n, downFrom n.toNat)) ∧
    (n < 0 → ∀ fuel : Nat, n.natAbs ≤ fuel →
      advance_v2_run bits ops2 fuel c n =
        Except.ok (advance_v2 ops2 c n, upFrom n.natAbs)) ∧
    (n < 0 → ∀ fuel : Nat,
      advance_v1_run bits ndebug ops1 fuel c n =
        if ndebug then Except.ok (c, [n]) else Except.error RunError.assertFailed) ∧
    (∀ k : Nat, List.Chain' (fun a b : Int => b = a - 1) (downFrom k) ∧
      (downFrom k).head? = some (k : Int) ∧ (downFrom k).getLast? = some 0) ∧
    (∀ k : Nat, List.Chain' (fun a b : Int => b = a + 1) (upFrom k) ∧
      (upFrom k).head? = some (-(k : Int)) ∧ (upFrom k).getLast? = some 0) ∧
    advance_v3 ops3 c n = ops3.addAssign c n := by
  refine ⟨?_, ?_, ?_, downFrom_shape, upFrom_shape, rfl⟩
  · intro h0 fuel hf
    have hc : ((n.toNat : Nat) : Int) = n := Int.toNat_of_nonneg h0
    have hr : DiffRange bits ((n.toNat : Nat) : Int) := by rw [hc]; exact hn
    have hrun := incLoopRun_natCast bits ops1.preinc fuel n.toNat c hr hf
    have hrun2 := incLoopRun_natCast bits ops2.preinc fuel n.toNat c hr hf
    rw [hc] at hrun hrun2
    have hd : decide (n ≥ 0) = true := decide_eq_true h0
    constructor
    · unfold advance_v1_run
      rw [hd, ← hrun]
      cases ndebug <;> rfl
    · unfold advance_v2_run
      rw [if_pos h0, hrun2, advance_v2_of_nonneg ops2 c n h0]
  · intro h0 fuel hf
    have hc : -((n.natAbs : Nat) : Int) = n := by omega
    have hr : DiffRange bits (-((n.natAbs : Nat) : Int)) := by rw [hc]; exact hn
    have hrun := decLoopRun_neg_natCast bits ops2.predec fuel n.natAbs c hr hf
    rw [hc] at hrun
    unfold advance_v2_run
    rw [if_neg (by omega), hrun, advance_v2_of_neg ops2 c n h0]
  · intro h0 fuel
    have hd : decide (n ≥ 0) = false := decide_eq_false (by omega)
    unfold advance_v1_run
    cases ndebug
    · simp [hd]
    · cases fuel <;> simp [incLoopRun, not_lt.mpr (le_of_lt h0)]

/-- Witness of C15: the minimum of an 8-bit difference type, -128, in Tier 2
on the position cursor. -/
theorem advance_terminates_without_overflow_witness :
    DiffRange 8 (-128) ∧ (-128 : Int) < 0 ∧
      advance_v2_run 8 positionOps.toBidirOps 128 (0 : Int) (-128) =
        Except.ok (advance_v2 positionOps.toBidirOps 0 (-128), upFrom (-128 : Int).natAbs) :=
  ⟨by decide, by decide,
   (advance_terminates_without_overflow 8 false positionOps.toInputOps positionOps.toBidirOps
      positionOps (0 : Int) (-128) (by decide)).2.1 (by decide) 128 (by decide)⟩

/-! ### Tier 2 as the action of the integer powers of a permutation -/

theorem advance_v2_eq_zpow {I : Type} (ops : BidirOps I)
    (hdi : ∀ x, ops.predec (ops.preinc x) = x) (hid : ∀ x, ops.preinc (ops.predec x) = x)
    (c : I) (n : Int) :
    advance_v2 ops c n = ((⟨ops.preinc, ops.predec, hdi, hid⟩ : Equiv.Perm I) ^ n) c := by
  rw [advance_v2_iterate]
  by_cases h : 0 ≤ n
  · rw [if_pos h]
    obtain ⟨k, rfl⟩ := Int.eq_ofNat_of_zero_le h
    rw [zpow_natCast, ← Equiv.Perm.iterate_eq_pow]
    rfl
  · rw [if_neg h]
    obtain ⟨k, hk⟩ := Int.eq_ofNat_of_zero_le (show 0 ≤ -n by omega)
    have hn : n = -(k : Int) := by omega
    subst hn
    rw [zpow_neg, zpow_natCast, ← inv_pow, ← Equiv.Perm.iterate_eq_pow]
    simp only [neg_neg, Int.toNat_natCast]
    rfl

/-- C16. Additivity of Tier 2: for every bidirectional cursor `c` whose
pre-increment and pre-decrement are mutual inverses and all offsets `a`, `b`
of the difference type with `a + b` representable, `advance(c, a)` followed by
`advance(c, b)` leaves the same cursor as a single `advance(c, a + b)`. -/
theorem advance_v2_additive {I : Type} (ops : BidirOps I)
    (hdi : ∀ x, ops.predec (ops.preinc x) = x) (hid : ∀ x, ops.preinc (ops.predec x) = x)
    (bits : Nat) (c : I) (a b : Int)
    (_ha : DiffRange bits a) (_hb : DiffRange bits b) (_hab : DiffRange bits (a + b)) :
    advance_v2 ops (advance_v2 ops c a) b = advance_v2 ops c (a + b) := by
  rw [advance_v2_eq_zpow ops hdi hid, advance_v2_eq_zpow ops hdi hid,
    advance_v2_eq_zpow ops hdi hid, add_comm a b, zpow_add, Equiv.Perm.mul_apply]

/-- Witness of C16: the position cursor at 7 advanced by 5 and then by -12. -/
theorem advance_v2_additive_witness :
    DiffRange 64 5 ∧ DiffRange 64 (-12) ∧ DiffRange 64 (5 + -12) ∧
      advance_v2 positionOps.toBidirOps (advance_v2 positionOps.toBidirOps 7 5) (-12) =
        advance_v2 positionOps.toBidirOps 7 (5 + -12) :=
  ⟨by decide, by decide, by decide,
    advance_v2_additive positionOps.toBidirOps (fun x => by simp [positionOps])
      (fun x => by simp [positionOps]) 64 7 5 (-12) (by decide) (by decide) (by decide)⟩

end ConceptsLite
